import Mathlib

/-!
Shallow embedding of `src/bladerf_rx.c` (bladeRF full-take capture tool).

The program creates a pre-sized, memory-mapped output file, configures a
bladeRF receiver, and runs an acquisition loop

  while(!stop_flag && !overrun && remaining &&
        !(res = bladerf_sync_rx(dev, dst, MIN(remaining,NUM_SAMPLES), &meta, TIMEOUT_MS))) {
      remaining -= meta.actual_count;
      dst       += meta.actual_count;
      written   += meta.actual_count * 4;
      overrun    = meta.status & BLADERF_META_STATUS_OVERRUN;
      ...stats...
  }

after which it truncates the file to `written` bytes (`close_file`) and
returns `(res == 0 || stop_flag) ? 0 : 1`.

`size_t` counters (`remaining`, `written`) are modelled as `Nat` with all
updates taken modulo `2^64`; the destination pointer is modelled as a sample
offset from `map_base`.  External calls (libbladeRF, open/mmap) are modelled
by an environment listing their result values; each evaluation of the loop
condition consumes one `LoopInput`, which carries the `stop_flag` value read
at that evaluation together with the result of the `bladerf_sync_rx` call
that would be issued.
-/

namespace BladerfRx

/-- `2^64`: the modulus of `size_t` arithmetic on the target platform. -/
def W64 : Nat := 2 ^ 64

/-- `#define NUM_SAMPLES (127*2048)` — maximum samples requested per rx call. -/
def NUM_SAMPLES : Nat := 127 * 2048

/-- `size_t` addition: wraps modulo `2^64`. -/
def add64 (a b : Nat) : Nat := (a + b) % W64

/-- `size_t` subtraction: wraps modulo `2^64`. -/
def sub64 (a b : Nat) : Nat := (a + (W64 - b % W64)) % W64

/-- Result of one `bladerf_sync_rx` call: the returned status, the
`meta.actual_count` field, and whether `meta.status` has the
`BLADERF_META_STATUS_OVERRUN` bit set. -/
structure RxResult where
  status : Int
  actual_count : Nat
  overrun : Bool
deriving Repr, DecidableEq

/-- One evaluation of the loop condition: the value of `stop_flag` read at
its head, and the rx result used if the call is reached. -/
structure LoopInput where
  stop : Bool
  rx : RxResult
deriving Repr, DecidableEq

/-- Why the `while` condition became false. -/
inductive ExitReason
  | userStop
  | overrunStop
  | capacityExhausted
  | sourceError
deriving Repr, DecidableEq

/-- The loop-relevant locals of `main`.  `events` is observation-only
instrumentation (not a program variable): the byte offset and byte length
handed to each issued `bladerf_sync_rx` write, in order. -/
structure LoopState where
  remaining : Nat
  dst : Nat
  written : Nat
  overrun : Bool
  res : Int
  stopFlag : Bool
  events : List (Nat × Nat)
deriving Repr, DecidableEq

/-- State on entry to the rx loop: `remaining = mf.map_size / 4`,
`dst = mf.map_base`, `written = 0`, `overrun = 0`, and `res = 0` (the
preceding `bladerf_enable_module` succeeded). -/
def initState (max_size : Nat) : LoopState :=
  { remaining := max_size / 4
    dst := 0
    written := 0
    overrun := false
    res := 0
    stopFlag := false
    events := [] }

/-- The loop body applied after a successful rx call delivering `r`:
`remaining -= actual_count; dst += actual_count; written += actual_count*4;
overrun = meta.status & OVERRUN`. -/
def deliver (s : LoopState) (r : RxResult) : LoopState :=
  { s with
    remaining := sub64 s.remaining r.actual_count
    dst := s.dst + r.actual_count
    written := add64 s.written (r.actual_count * 4)
    overrun := r.overrun
    events := s.events ++ [(4 * s.dst, 4 * r.actual_count)] }

/-- One evaluation of the loop condition (plus the body when it passes).
The conjuncts are evaluated left to right exactly as in the source:
`!stop_flag && !overrun && remaining && !(res = bladerf_sync_rx(...))`. -/
def step (s : LoopState) (inp : LoopInput) : LoopState × Option ExitReason :=
  if inp.stop then ({ s with stopFlag := true }, some .userStop)
  else if s.overrun then (s, some .overrunStop)
  else if s.remaining = 0 then (s, some .capacityExhausted)
  else if inp.rx.status ≠ 0 then ({ s with res := inp.rx.status }, some .sourceError)
  else (deliver s inp.rx, none)

/-- Run the rx loop over a schedule of condition evaluations.  Returns the
final state and the exit reason; `none` means the schedule ran out while the
loop was still running. -/
def runLoop : LoopState → List LoopInput → LoopState × Option ExitReason
  | s, [] => (s, none)
  | s, inp :: rest =>
    match step s inp with
    | (s', none) => runLoop s' rest
    | (s', some r) => (s', some r)

/-- The delivery-size precondition: every rx call that the loop actually
issues (and that returns status 0) reports
`actual_count ≤ MIN(remaining, NUM_SAMPLES)`, the count it was asked for. -/
def goodRun (s : LoopState) : List LoopInput → Bool
  | [] => true
  | inp :: rest =>
    if inp.stop then true
    else if s.overrun then true
    else if s.remaining = 0 then true
    else if inp.rx.status ≠ 0 then true
    else
      decide (inp.rx.actual_count ≤ min s.remaining NUM_SAMPLES) &&
        goodRun (deliver s inp.rx) rest

/-- `float autoscale_float(float val, char *suffix)`, modelled over `ℚ`
(all values the program feeds it are integers well below `2^24`, exactly
representable; the division by 1000 is modelled exactly).  The suffix table
is `" kMG"`; the loop is `for(;(val>=1000.0) && p[1];p++) val/=1000.0;`. -/
def autoscaleGo : ℚ → List Char → ℚ × Char
  | v, [] => (v, ' ')
  | v, [c] => (v, c)
  | v, c :: c' :: rest =>
    if 1000 ≤ v then autoscaleGo (v / 1000) (c' :: rest) else (v, c)

/-- `autoscale_float` applied to the `" kMG"` table. -/
def autoscale_float (v : ℚ) : ℚ × Char := autoscaleGo v [' ', 'k', 'M', 'G']

/-- Decimal value of the longest digit prefix, accumulator style, as
`strtoull(arg, NULL, 10)` computes it on a digit string. -/
def digitsVal : List Char → Nat → Nat
  | [], acc => acc
  | c :: rest, acc =>
    if c.isDigit then digitsVal rest (acc * 10 + (c.toNat - '0'.toNat)) else acc

/-- `strtoull(arg, NULL, 10)`: value of the digit prefix, clamped to
`ULLONG_MAX` on overflow. -/
def strtoull10 (s : String) : Nat := min (digitsVal s.data 0) (W64 - 1)

/-- `size_t parse_fsize(const char *arg)`: look at `arg[len-1]`, map
`M`/`G`/`T` to a 1000-based multiplier (any other suffix leaves `mult = 0`),
and return `strtoull(arg, NULL, 10) * mult` in `size_t` arithmetic. -/
def parse_fsize (arg : String) : Nat :=
  let suffix : Char := arg.data.getLastD (Char.ofNat 0)
  let mult : Nat :=
    if suffix = 'M' then 1000 * 1000
    else if suffix = 'G' then 1000 * 1000 * 1000
    else if suffix = 'T' then 1000 * 1000 * 1000 * 1000
    else 0
  (strtoull10 arg * mult) % W64

/-- The command-line arguments after `getopt`: `-f`, `-s`, `-g`, `-l`.
`gainArg = none` models `manual_gain == INT_MIN` (sentinel: no `-g`). -/
structure Args where
  fname : Option String
  sizeArg : Option String
  gainArg : Option Int
  logArg : Option String
deriving Repr, DecidableEq

/-- `max_size` as computed by the option loop: `parse_fsize(optarg)` when
`-s` was given, else its initial value 0. -/
def argMaxSize (a : Args) : Nat :=
  match a.sizeArg with
  | none => 0
  | some s => parse_fsize s

/-- Results of the external calls `main` makes, in program order, plus the
rx-loop schedule.  `lateStop` is the value of `stop_flag` at the final
`return` statement beyond anything the loop itself observed (a signal can
arrive after the loop exits). -/
structure Env where
  logOpenOk : Bool
  fileExists : Bool
  ftruncateOk : Bool
  mmapOk : Bool
  openRes : Int
  freqRes : Int
  srateRes : Int
  bwRes : Int
  gainModeRes : Int
  setGainRes : Int
  syncCfgRes : Int
  enableRes : Int
  loopInputs : List LoopInput
  lateStop : Bool
deriving Repr, DecidableEq

/-- Observable outcome of a run of `main`. -/
structure MainResult where
  ret : Int
  closeFileCalls : Nat
  deviceOpenCalled : Bool
  captureFileCreated : Bool
  existingFileModified : Bool
  artifactSize : Option Nat
  overrunWarning : Bool
  loopExit : Option ExitReason
deriving Repr, DecidableEq

/-- Outcome before anything has been touched. -/
def MainResult.base : MainResult :=
  { ret := 0
    closeFileCalls := 0
    deviceOpenCalled := false
    captureFileCreated := false
    existingFileModified := false
    artifactSize := none
    overrunWarning := false
    loopExit := none }

/-- `return (res == 0 || stop_flag) ? 0 : 1;` — the final statement of
`main`, also reached by `goto cleanup`. -/
def finalRet (res : Int) (stopFlag : Bool) : Int :=
  if res = 0 ∨ stopFlag then 0 else 1

/-- The process exit status the OS observes for a `return r` from `main`:
the low 8 bits (`return -1` is observed as 255). -/
def processExit (r : Int) : Nat := (r % 256).toNat

/-- `int main(int argc, char **argv)` as a function of the parsed arguments
and the environment.  Mirrors the source's control flow statement by
statement; each branch records which side effects were reached. -/
def mainModel (a : Args) (env : Env) : MainResult :=
  -- if (!fname || !max_size) { usage(argv[0]); return 1; }
  if a.fname = none ∨ argMaxSize a = 0 then
    { MainResult.base with ret := 1 }
  -- if(log_fname) { logfile = fopen(log_fname, "wx"); if(!logfile) return -1; }
  else if a.logArg.isSome ∧ env.logOpenOk = false then
    { MainResult.base with ret := -1 }
  -- create_file: open(fn, O_CREAT|O_EXCL|O_RDWR, ...) fails if fn exists
  else if env.fileExists then
    { MainResult.base with ret := -1 }
  -- create_file: ftruncate(fd, max_size) failure → close(fd); return -1
  else if env.ftruncateOk = false then
    { MainResult.base with ret := -1, captureFileCreated := true }
  -- create_file: mmap failure → close(fd); return -1
  else if env.mmapOk = false then
    { MainResult.base with ret := -1, captureFileCreated := true }
  -- if ((res = bladerf_open(&dev, NULL)) != 0) return -1;   (no close_file!)
  else if env.openRes ≠ 0 then
    { MainResult.base with
      ret := -1, captureFileCreated := true, deviceOpenCalled := true }
  else
    let devBase : MainResult :=
      { MainResult.base with captureFileCreated := true, deviceOpenCalled := true }
    -- (res = set_frequency) != 0 || (res = set_sample_rate) != 0 || (res = set_bandwidth) != 0
    let cfgRes : Int :=
      if env.freqRes ≠ 0 then env.freqRes
      else if env.srateRes ≠ 0 then env.srateRes
      else env.bwRes
    if cfgRes ≠ 0 then
      -- goto cleanup
      { devBase with
        ret := finalRet cfgRes env.lateStop
        closeFileCalls := 1, artifactSize := some 0 }
    else if env.gainModeRes ≠ 0 then
      { devBase with
        ret := finalRet env.gainModeRes env.lateStop
        closeFileCalls := 1, artifactSize := some 0 }
    else if a.gainArg.isSome ∧ env.setGainRes ≠ 0 then
      { devBase with
        ret := finalRet env.setGainRes env.lateStop
        closeFileCalls := 1, artifactSize := some 0 }
    else if env.syncCfgRes ≠ 0 then
      -- if (res != 0) { ...; return res; }   (no close_file!)
      { devBase with ret := env.syncCfgRes }
    else if env.enableRes ≠ 0 then
      { devBase with
        ret := finalRet env.enableRes env.lateStop
        closeFileCalls := 1, artifactSize := some 0 }
    else
      -- the rx loop, then: warning if overrun; cleanup: close_file(&mf, written)
      let run := runLoop (initState (argMaxSize a)) env.loopInputs
      { devBase with
        ret := finalRet run.1.res (run.1.stopFlag || env.lateStop)
        closeFileCalls := 1
        artifactSize := some run.1.written
        overrunWarning := run.1.overrun
        loopExit := run.2 }

/-! ## Loop invariant -/

/-- The invariant the acquisition loop maintains over a `max_size`-byte
store: the byte counter tracks the destination pointer, the write cursor
plus four bytes per remaining sample is the (sample-aligned) capacity, and
the recorded writes are contiguous in offset order, ending at the cursor. -/
structure Inv (ms : Nat) (s : LoopState) : Prop where
  wd : s.written = 4 * s.dst
  cap : s.written + 4 * s.remaining = 4 * (ms / 4)
  chain : s.events.Chain' (fun a b => a.1 + a.2 = b.1)
  lastEnd : ∀ x ∈ s.events.getLast?, x.1 + x.2 = 4 * s.dst

theorem initState_inv (ms : Nat) : Inv ms (initState ms) := by
  refine ⟨rfl, by simp [initState], by simp [initState], by simp [initState]⟩

theorem deliver_inv {ms : Nat} (hms : ms < W64) {s : LoopState} {r : RxResult}
    (hs : Inv ms s) (hac : r.actual_count ≤ min s.remaining NUM_SAMPLES) :
    Inv ms (deliver s r) := by
  have hwd := hs.wd
  have hcap := hs.cap
  have hac' : r.actual_count ≤ s.remaining := le_trans hac (Nat.min_le_left _ _)
  have hdiv : 4 * (ms / 4) ≤ ms := Nat.mul_div_le ms 4
  refine ⟨?_, ?_, ?_, ?_⟩
  · show add64 s.written (r.actual_count * 4) = 4 * (s.dst + r.actual_count)
    simp only [add64, W64] at *
    omega
  · show add64 s.written (r.actual_count * 4) + 4 * sub64 s.remaining r.actual_count = 4 * (ms / 4)
    simp only [add64, sub64, W64] at *
    omega
  · show (s.events ++ [(4 * s.dst, 4 * r.actual_count)]).Chain' _
    rw [List.chain'_append]
    refine ⟨hs.chain, List.chain'_singleton _, ?_⟩
    intro x hx y hy
    simp only [List.head?_cons, Option.mem_def, Option.some.injEq] at hy
    subst hy
    exact hs.lastEnd x hx
  · show ∀ x ∈ (s.events ++ [(4 * s.dst, 4 * r.actual_count)]).getLast?, _
    rw [List.getLast?_concat]
    intro x hx
    simp only [Option.mem_def, Option.some.injEq] at hx
    subst hx
    show 4 * s.dst + 4 * r.actual_count = 4 * (s.dst + r.actual_count)
    ring

theorem deliver_res (s : LoopState) (r : RxResult) : (deliver s r).res = s.res := rfl

theorem deliver_stopFlag (s : LoopState) (r : RxResult) :
    (deliver s r).stopFlag = s.stopFlag := rfl

/-! Case lemmas for one evaluation of the loop condition. -/

theorem step_stop {s : LoopState} {inp : LoopInput} (h : inp.stop = true) :
    step s inp = ({ s with stopFlag := true }, some .userStop) := by
  simp [step, h]

theorem step_overrun {s : LoopState} {inp : LoopInput}
    (h1 : inp.stop = false) (h2 : s.overrun = true) :
    step s inp = (s, some .overrunStop) := by
  simp [step, h1, h2]

theorem step_capacity {s : LoopState} {inp : LoopInput}
    (h1 : inp.stop = false) (h2 : s.overrun = false) (h3 : s.remaining = 0) :
    step s inp = (s, some .capacityExhausted) := by
  simp [step, h1, h2, h3]

theorem step_sourceError {s : LoopState} {inp : LoopInput}
    (h1 : inp.stop = false) (h2 : s.overrun = false) (h3 : s.remaining ≠ 0)
    (h4 : inp.rx.status ≠ 0) :
    step s inp = ({ s with res := inp.rx.status }, some .sourceError) := by
  simp [step, h1, h2, h3, h4]

theorem step_deliver {s : LoopState} {inp : LoopInput}
    (h1 : inp.stop = false) (h2 : s.overrun = false) (h3 : s.remaining ≠ 0)
    (h4 : inp.rx.status = 0) :
    step s inp = (deliver s inp.rx, none) := by
  simp [step, h1, h2, h3, h4]

theorem runLoop_cons_exit {s s' : LoopState} {inp : LoopInput} {rest : List LoopInput}
    {r : ExitReason} (h : step s inp = (s', some r)) :
    runLoop s (inp :: rest) = (s', some r) := by
  simp [runLoop, h]

theorem runLoop_cons_cont {s s' : LoopState} {inp : LoopInput} {rest : List LoopInput}
    (h : step s inp = (s', none)) :
    runLoop s (inp :: rest) = runLoop s' rest := by
  simp [runLoop, h]

theorem goodRun_cons_deliver {s : LoopState} {inp : LoopInput} {rest : List LoopInput}
    (h1 : inp.stop = false) (h2 : s.overrun = false) (h3 : s.remaining ≠ 0)
    (h4 : inp.rx.status = 0) (hg : goodRun s (inp :: rest) = true) :
    inp.rx.actual_count ≤ min s.remaining NUM_SAMPLES ∧
      goodRun (deliver s inp.rx) rest = true := by
  simp [goodRun, h1, h2, h3, h4] at hg
  exact ⟨le_min hg.1.1 hg.1.2, hg.2⟩

/-- Everything the claims need about a run of the loop from an invariant
state under the delivery-size precondition. -/
theorem runLoop_spec (ms : Nat) (hms : ms < W64) :
    ∀ (inputs : List LoopInput) (s : LoopState), Inv ms s → goodRun s inputs = true →
      Inv ms (runLoop s inputs).1 ∧
      ((runLoop s inputs).2 ≠ some .sourceError → (runLoop s inputs).1.res = s.res) ∧
      ((runLoop s inputs).2 = some .sourceError → (runLoop s inputs).1.res ≠ 0) ∧
      ((runLoop s inputs).2 = some .userStop → (runLoop s inputs).1.stopFlag = true) ∧
      ((runLoop s inputs).2 ≠ some .userStop →
        (runLoop s inputs).1.stopFlag = s.stopFlag) ∧
      ((runLoop s inputs).2 = some .capacityExhausted → (runLoop s inputs).1.remaining = 0) ∧
      ((runLoop s inputs).2 = some .overrunStop → (runLoop s inputs).1.overrun = true) := by
  intro inputs
  induction inputs with
  | nil =>
    intro s hinv _
    refine ⟨hinv, fun _ => rfl, ?_, ?_, fun _ => rfl, ?_, ?_⟩ <;> simp [runLoop]
  | cons inp rest ih =>
    intro s hinv hg
    by_cases h1 : inp.stop = true
    · rw [runLoop_cons_exit (step_stop h1)]
      exact ⟨⟨hinv.wd, hinv.cap, hinv.chain, hinv.lastEnd⟩,
        fun _ => rfl, by simp, fun _ => rfl, by simp, by simp, by simp⟩
    · rw [Bool.not_eq_true] at h1
      by_cases h2 : s.overrun = true
      · rw [runLoop_cons_exit (step_overrun h1 h2)]
        exact ⟨hinv, fun _ => rfl, by simp, by simp, fun _ => rfl, by simp,
          fun _ => h2⟩
      · rw [Bool.not_eq_true] at h2
        by_cases h3 : s.remaining = 0
        · rw [runLoop_cons_exit (step_capacity h1 h2 h3)]
          exact ⟨hinv, fun _ => rfl, by simp, by simp, fun _ => rfl,
            fun _ => h3, by simp⟩
        · by_cases h4 : inp.rx.status = 0
          · rw [runLoop_cons_cont (step_deliver h1 h2 h3 h4)]
            obtain ⟨hac, hg'⟩ := goodRun_cons_deliver h1 h2 h3 h4 hg
            have hrec := ih (deliver s inp.rx) (deliver_inv hms hinv hac) hg'
            refine ⟨hrec.1, ?_, hrec.2.2.1, hrec.2.2.2.1, ?_, hrec.2.2.2.2.2.1,
              hrec.2.2.2.2.2.2⟩
            · intro h
              rw [hrec.2.1 h, deliver_res]
            · intro h
              rw [hrec.2.2.2.2.1 h, deliver_stopFlag]
          · rw [runLoop_cons_exit (step_sourceError h1 h2 h3 h4)]
            exact ⟨⟨hinv.wd, hinv.cap, hinv.chain, hinv.lastEnd⟩,
              by simp, fun _ => h4, by simp, fun _ => rfl, by simp, by simp⟩

/-! ## Reaching the rx loop -/

/-- All pre-loop checks pass: valid arguments, log file (if any) opened,
`create_file` succeeded, and every libbladeRF setup call returned 0. -/
def reachesLoop (a : Args) (env : Env) : Prop :=
  a.fname ≠ none ∧ argMaxSize a ≠ 0 ∧
  (a.logArg.isSome = true → env.logOpenOk = true) ∧
  env.fileExists = false ∧ env.ftruncateOk = true ∧ env.mmapOk = true ∧
  env.openRes = 0 ∧ env.freqRes = 0 ∧ env.srateRes = 0 ∧ env.bwRes = 0 ∧
  env.gainModeRes = 0 ∧ (a.gainArg.isSome = true → env.setGainRes = 0) ∧
  env.syncCfgRes = 0 ∧ env.enableRes = 0

instance (a : Args) (env : Env) : Decidable (reachesLoop a env) := by
  unfold reachesLoop
  infer_instance

/-- When every pre-loop step succeeds, `main` runs the rx loop and then the
shared `cleanup:` tail: one `close_file(&mf, written)` call, the overrun
warning, and `return (res == 0 || stop_flag) ? 0 : 1`. -/
theorem mainModel_of_reachesLoop {a : Args} {env : Env} (h : reachesLoop a env) :
    mainModel a env =
      { ret := finalRet (runLoop (initState (argMaxSize a)) env.loopInputs).1.res
          ((runLoop (initState (argMaxSize a)) env.loopInputs).1.stopFlag || env.lateStop)
        closeFileCalls := 1
        deviceOpenCalled := true
        captureFileCreated := true
        existingFileModified := false
        artifactSize := some (runLoop (initState (argMaxSize a)) env.loopInputs).1.written
        overrunWarning := (runLoop (initState (argMaxSize a)) env.loopInputs).1.overrun
        loopExit := (runLoop (initState (argMaxSize a)) env.loopInputs).2 } := by
  obtain ⟨h1, h2, h3, h4, h5, h6, h7, h8, h9, h10, h11, h12, h13, h14⟩ := h
  have hlog : ¬(a.logArg.isSome ∧ env.logOpenOk = false) := by
    rintro ⟨hl, hl'⟩
    rw [h3 hl] at hl'
    exact absurd hl' (by simp)
  have hgain : ¬(a.gainArg.isSome ∧ env.setGainRes ≠ 0) := by
    rintro ⟨hl, hl'⟩
    exact hl' (h12 hl)
  unfold mainModel
  rw [if_neg (by simp [h1, h2]), if_neg hlog, if_neg (by simp [h4]),
    if_neg (by simp [h5]), if_neg (by simp [h6]), if_neg (by simp [h7])]
  simp only [h8, h9, h10]
  rw [if_neg (by simp), if_neg (by simp [h11]), if_neg hgain,
    if_neg (by simp [h13]), if_neg (by simp [h14])]
  rfl

/-! ## Facts about `parse_fsize` -/

theorem parse_fsize_lt_W64 (s : String) : parse_fsize s < W64 :=
  Nat.mod_lt _ (by norm_num [W64])

theorem four_dvd_parse_fsize (s : String) : 4 ∣ parse_fsize s := by
  have hW : (4 : Nat) ∣ W64 := ⟨2 ^ 62, by norm_num [W64]⟩
  unfold parse_fsize
  rw [Nat.dvd_mod_iff hW]
  split_ifs
  · exact Dvd.dvd.mul_left (by norm_num) _
  · exact Dvd.dvd.mul_left (by norm_num) _
  · exact Dvd.dvd.mul_left (by norm_num) _
  · simp

theorem argMaxSize_lt_W64 (a : Args) : argMaxSize a < W64 := by
  unfold argMaxSize
  match a.sizeArg with
  | none => norm_num [W64]
  | some s => exact parse_fsize_lt_W64 s

theorem four_dvd_argMaxSize (a : Args) : 4 ∣ argMaxSize a := by
  unfold argMaxSize
  match a.sizeArg with
  | none => exact Dvd.intro 0 rfl
  | some s => exact four_dvd_parse_fsize s

/-! ## Claims -/

/-- Arguments for the C1 runs: `-f capture.bin -s 500M`. -/
def c1Args : Args :=
  { fname := some "capture.bin", sizeArg := some "500M", gainArg := none, logArg := none }

/-- C1 environment: everything succeeds up to `bladerf_sync_config`, which
fails (libbladeRF returns a negative error code). -/
def c1EnvSync : Env :=
  { logOpenOk := true, fileExists := false, ftruncateOk := true, mmapOk := true,
    openRes := 0, freqRes := 0, srateRes := 0, bwRes := 0, gainModeRes := 0,
    setGainRes := 0, syncCfgRes := -14, enableRes := 0, loopInputs := [],
    lateStop := false }

/-- C1 environment: `create_file` succeeds but `bladerf_open` fails. -/
def c1EnvOpen : Env :=
  { logOpenOk := true, fileExists := false, ftruncateOk := true, mmapOk := true,
    openRes := -7, freqRes := 0, srateRes := 0, bwRes := 0, gainModeRes := 0,
    setGainRes := 0, syncCfgRes := 0, enableRes := 0, loopInputs := [],
    lateStop := false }

/-- C1: the claim says `close_file` runs exactly once on every exit path
reached after `create_file` succeeded.  The code violates this: when
`bladerf_sync_config` fails, `main` does `return res` (line 208) instead of
`goto cleanup`, and when `bladerf_open` fails it does `return -1`
(line 175); on both paths the output file was created but `close_file` is
never called, so the artifact is left at its pre-allocated `max_size`. -/
theorem c1_finalize_skipped_on_device_setup_failure :
    ((mainModel c1Args c1EnvSync).captureFileCreated = true ∧
      (mainModel c1Args c1EnvSync).closeFileCalls = 0 ∧
      (mainModel c1Args c1EnvSync).artifactSize = none ∧
      (mainModel c1Args c1EnvSync).ret = -14) ∧
    ((mainModel c1Args c1EnvOpen).captureFileCreated = true ∧
      (mainModel c1Args c1EnvOpen).closeFileCalls = 0 ∧
      (mainModel c1Args c1EnvOpen).artifactSize = none ∧
      (mainModel c1Args c1EnvOpen).ret = -1) :=
  ⟨⟨rfl, rfl, rfl, rfl⟩, ⟨rfl, rfl, rfl, rfl⟩⟩

/-- C2: if the run reaches the rx loop, every delivery satisfies
`actual_count ≤ MIN(remaining, NUM_SAMPLES)`, and the loop terminates
because the remaining capacity reached zero, then the finalized artifact
size is exactly the requested capacity `max_size` in bytes (which is always
a multiple of 4, being a 1000-based multiple from `parse_fsize`). -/
theorem c2_capacity_exhausted_exact_size (a : Args) (env : Env)
    (hr : reachesLoop a env)
    (hg : goodRun (initState (argMaxSize a)) env.loopInputs = true)
    (hexit : (runLoop (initState (argMaxSize a)) env.loopInputs).2 =
      some .capacityExhausted) :
    (mainModel a env).artifactSize = some (argMaxSize a) := by
  rw [mainModel_of_reachesLoop hr]
  show some (runLoop (initState (argMaxSize a)) env.loopInputs).1.written =
    some (argMaxSize a)
  have hspec := runLoop_spec (argMaxSize a) (argMaxSize_lt_W64 a)
    env.loopInputs (initState (argMaxSize a)) (initState_inv _) hg
  have hrem := hspec.2.2.2.2.2.1 hexit
  have hcap := hspec.1.cap
  rw [hrem] at hcap
  have hdvd := four_dvd_argMaxSize a
  exact congrArg some (by omega)

/-- C2 witness: `-s 1M` (250000 samples), one full-capacity delivery, then
the loop observes `remaining == 0` and stops; the artifact is exactly
1000000 bytes. -/
theorem c2_capacity_exhausted_exact_size_witness :
    (mainModel
      { fname := some "o.bin", sizeArg := some "1M", gainArg := none, logArg := none }
      { logOpenOk := true, fileExists := false, ftruncateOk := true, mmapOk := true,
        openRes := 0, freqRes := 0, srateRes := 0, bwRes := 0, gainModeRes := 0,
        setGainRes := 0, syncCfgRes := 0, enableRes := 0,
        loopInputs := [⟨false, ⟨0, 250000, false⟩⟩, ⟨false, ⟨0, 0, false⟩⟩],
        lateStop := false }).artifactSize = some 1000000 :=
  c2_capacity_exhausted_exact_size _ _ (by decide) (by decide) (by decide)

/-- C3: after the rx loop, the process returns 0 when the loop ended via
user stop, capacity exhaustion, or overrun, and returns 1 (non-zero) when
it ended via a non-zero `bladerf_sync_rx` status with the stop flag unset.
-/
theorem c3_exit_code_policy (a : Args) (env : Env) (hr : reachesLoop a env)
    (hg : goodRun (initState (argMaxSize a)) env.loopInputs = true) :
    (((runLoop (initState (argMaxSize a)) env.loopInputs).2 = some .userStop ∨
      (runLoop (initState (argMaxSize a)) env.loopInputs).2 = some .capacityExhausted ∨
      (runLoop (initState (argMaxSize a)) env.loopInputs).2 = some .overrunStop) →
      (mainModel a env).ret = 0 ∧ processExit (mainModel a env).ret = 0) ∧
    ((runLoop (initState (argMaxSize a)) env.loopInputs).2 = some .sourceError →
      env.lateStop = false →
      (mainModel a env).ret = 1 ∧ processExit (mainModel a env).ret ≠ 0) := by
  rw [mainModel_of_reachesLoop hr]
  have hspec := runLoop_spec (argMaxSize a) (argMaxSize_lt_W64 a)
    env.loopInputs (initState (argMaxSize a)) (initState_inv _) hg
  constructor
  · intro hcase
    have hret : finalRet (runLoop (initState (argMaxSize a)) env.loopInputs).1.res
        ((runLoop (initState (argMaxSize a)) env.loopInputs).1.stopFlag ||
          env.lateStop) = 0 := by
      rcases hcase with h | h | h
      · have := hspec.2.2.2.1 h
        simp [finalRet, this]
      · have hres0 : (runLoop (initState (argMaxSize a)) env.loopInputs).1.res = 0 := by
          rw [hspec.2.1 (by rw [h]; simp)]
          rfl
        simp [finalRet, hres0]
      · have hres0 : (runLoop (initState (argMaxSize a)) env.loopInputs).1.res = 0 := by
          rw [hspec.2.1 (by rw [h]; simp)]
          rfl
        simp [finalRet, hres0]
    exact ⟨hret, by simp [hret, processExit]⟩
  · intro hcase hlate
    have hres := hspec.2.2.1 hcase
    have hsf : (runLoop (initState (argMaxSize a)) env.loopInputs).1.stopFlag =
        (initState (argMaxSize a)).stopFlag := hspec.2.2.2.2.1 (by rw [hcase]; simp)
    have hret : finalRet (runLoop (initState (argMaxSize a)) env.loopInputs).1.res
        ((runLoop (initState (argMaxSize a)) env.loopInputs).1.stopFlag ||
          env.lateStop) = 1 := by
      rw [hsf, hlate]
      show (if _ ∨ (false || false) = true then (0:Int) else 1) = 1
      simp [finalRet, hres]
    exact ⟨hret, by simp [hret, processExit]⟩

/-- C3 witness: a device-error exit (`bladerf_sync_rx` returns −5 on the
first call) yields return value 1; a user-stop exit yields 0. -/
theorem c3_exit_code_policy_witness :
    (mainModel
      { fname := some "o.bin", sizeArg := some "1M", gainArg := none, logArg := none }
      { logOpenOk := true, fileExists := false, ftruncateOk := true, mmapOk := true,
        openRes := 0, freqRes := 0, srateRes := 0, bwRes := 0, gainModeRes := 0,
        setGainRes := 0, syncCfgRes := 0, enableRes := 0,
        loopInputs := [⟨false, ⟨-5, 0, false⟩⟩],
        lateStop := false }).ret = 1 :=
  ((c3_exit_code_policy _ _ (by decide) (by decide)).2 (by decide) rfl).1

/-- C4: when the second delivered block reports the overrun flag (status 0,
`n1 + n2 = 100` samples total), the block's data is kept — `remaining`,
`dst` and `written` are advanced before the flag is looked at — the loop
issues no further receive request (the schedule tail `rest` is irrelevant),
the overrun warning is emitted, the process exits with code 0, and the
artifact is exactly 400 bytes. -/
theorem c4_overrun_keeps_block_and_exits_zero (a : Args) (env : Env)
    (n1 n2 : Nat) (i3 : LoopInput) (rest : List LoopInput)
    (hr : reachesLoop a env)
    (hcap : 100 ≤ argMaxSize a / 4)
    (hn : n1 + n2 = 100) (hn2 : 0 < n2)
    (hinputs : env.loopInputs =
      ⟨false, ⟨0, n1, false⟩⟩ :: ⟨false, ⟨0, n2, true⟩⟩ :: i3 :: rest)
    (hi3 : i3.stop = false) :
    (mainModel a env).artifactSize = some 400 ∧
    (mainModel a env).overrunWarning = true ∧
    (mainModel a env).ret = 0 ∧ processExit (mainModel a env).ret = 0 ∧
    (mainModel a env).loopExit = some .overrunStop := by
  have hW : argMaxSize a < W64 := argMaxSize_lt_W64 a
  have hdiv : argMaxSize a / 4 ≤ argMaxSize a := Nat.div_le_self _ _
  have hn1 : n1 ≤ argMaxSize a / 4 := by omega
  -- first delivery
  have h1 : step (initState (argMaxSize a)) ⟨false, ⟨0, n1, false⟩⟩ =
      (deliver (initState (argMaxSize a)) ⟨0, n1, false⟩, none) :=
    step_deliver rfl rfl (by show argMaxSize a / 4 ≠ 0; omega) rfl
  -- the state after the first delivery
  have hrem1 : (deliver (initState (argMaxSize a)) ⟨0, n1, false⟩).remaining =
      argMaxSize a / 4 - n1 := by
    show sub64 (argMaxSize a / 4) n1 = argMaxSize a / 4 - n1
    simp only [sub64, W64] at *
    omega
  -- second delivery (reports the overrun flag)
  have h2 : step (deliver (initState (argMaxSize a)) ⟨0, n1, false⟩)
        ⟨false, ⟨0, n2, true⟩⟩ =
      (deliver (deliver (initState (argMaxSize a)) ⟨0, n1, false⟩) ⟨0, n2, true⟩,
        none) :=
    step_deliver rfl rfl (by rw [hrem1]; omega) rfl
  -- the next condition evaluation sees overrun and leaves the loop
  have h3 : step (deliver (deliver (initState (argMaxSize a)) ⟨0, n1, false⟩)
        ⟨0, n2, true⟩) i3 =
      (deliver (deliver (initState (argMaxSize a)) ⟨0, n1, false⟩) ⟨0, n2, true⟩,
        some .overrunStop) :=
    step_overrun hi3 rfl
  have hrun : runLoop (initState (argMaxSize a)) env.loopInputs =
      (deliver (deliver (initState (argMaxSize a)) ⟨0, n1, false⟩) ⟨0, n2, true⟩,
        some .overrunStop) := by
    rw [hinputs, runLoop_cons_cont h1, runLoop_cons_cont h2, runLoop_cons_exit h3]
  have hwr : (deliver (deliver (initState (argMaxSize a)) ⟨0, n1, false⟩)
      ⟨0, n2, true⟩).written = 400 := by
    show add64 (add64 0 (n1 * 4)) (n2 * 4) = 400
    simp only [add64, W64]
    omega
  rw [mainModel_of_reachesLoop hr]
  rw [hrun] at *
  refine ⟨by rw [show (deliver (deliver (initState (argMaxSize a)) ⟨0, n1, false⟩)
      ⟨0, n2, true⟩, some ExitReason.overrunStop).1.written = 400 from hwr],
    rfl, ?_, ?_, rfl⟩
  · show finalRet 0 (false || env.lateStop) = 0
    simp [finalRet]
  · show processExit (finalRet 0 (false || env.lateStop)) = 0
    simp [finalRet, processExit]

/-- C4 witness: `-s 1M`, blocks of 60 then 40 samples with overrun on the
second; artifact 400 bytes, warning, exit 0, loop leaves via overrun. -/
theorem c4_overrun_keeps_block_and_exits_zero_witness :
    (mainModel
        { fname := some "o.bin", sizeArg := some "1M", gainArg := none, logArg := none }
        { logOpenOk := true, fileExists := false, ftruncateOk := true, mmapOk := true,
          openRes := 0, freqRes := 0, srateRes := 0, bwRes := 0, gainModeRes := 0,
          setGainRes := 0, syncCfgRes := 0, enableRes := 0,
          loopInputs := [⟨false, ⟨0, 60, false⟩⟩, ⟨false, ⟨0, 40, true⟩⟩,
            ⟨false, ⟨0, 0, false⟩⟩],
          lateStop := false }).artifactSize = some 400 :=
  (c4_overrun_keeps_block_and_exits_zero _ _ 60 40 ⟨false, ⟨0, 0, false⟩⟩ []
    (by decide) (by decide) (by decide) (by decide) rfl rfl).1

/-- C5 counterexample: with `-f capture.bin -s 500M` and the target path
already existing, `create_file`'s `open(O_CREAT|O_EXCL)` fails and `main`
executes `return -1` (line 162), so the process exit status is 255 — not 1
as the claim states.  (The rest of the claim holds: no device is opened and
the pre-existing file is untouched.) -/
theorem c5_existing_path_returns_255_not_1 :
    (mainModel
        { fname := some "capture.bin", sizeArg := some "500M",
          gainArg := none, logArg := none }
        { logOpenOk := true, fileExists := true, ftruncateOk := true, mmapOk := true,
          openRes := 0, freqRes := 0, srateRes := 0, bwRes := 0, gainModeRes := 0,
          setGainRes := 0, syncCfgRes := 0, enableRes := 0, loopInputs := [],
          lateStop := false }).ret = -1 ∧
    processExit (mainModel
        { fname := some "capture.bin", sizeArg := some "500M",
          gainArg := none, logArg := none }
        { logOpenOk := true, fileExists := true, ftruncateOk := true, mmapOk := true,
          openRes := 0, freqRes := 0, srateRes := 0, bwRes := 0, gainModeRes := 0,
          setGainRes := 0, syncCfgRes := 0, enableRes := 0, loopInputs := [],
          lateStop := false }).ret = 255 ∧
    ¬ processExit (mainModel
        { fname := some "capture.bin", sizeArg := some "500M",
          gainArg := none, logArg := none }
        { logOpenOk := true, fileExists := true, ftruncateOk := true, mmapOk := true,
          openRes := 0, freqRes := 0, srateRes := 0, bwRes := 0, gainModeRes := 0,
          setGainRes := 0, syncCfgRes := 0, enableRes := 0, loopInputs := [],
          lateStop := false }).ret = 1 := by
  refine ⟨rfl, rfl, ?_⟩
  decide

/-- C5 amended: if the target artifact path already exists (and the
arguments are valid, and the log file — if requested — opens), the process
exits with a NON-ZERO status (`main` returns −1, observed as 255), no
device is opened, the pre-existing file is not modified, no capture file is
created, and `close_file` is never entered. -/
theorem c5_existing_path_nonzero_exit_no_device (a : Args) (env : Env)
    (hf : a.fname ≠ none) (hs : argMaxSize a ≠ 0)
    (hlog : a.logArg.isSome = true → env.logOpenOk = true)
    (hex : env.fileExists = true) :
    (mainModel a env).ret = -1 ∧
    processExit (mainModel a env).ret = 255 ∧
    (mainModel a env).deviceOpenCalled = false ∧
    (mainModel a env).existingFileModified = false ∧
    (mainModel a env).captureFileCreated = false ∧
    (mainModel a env).closeFileCalls = 0 := by
  have hlog' : ¬(a.logArg.isSome ∧ env.logOpenOk = false) := by
    rintro ⟨hl, hl'⟩
    rw [hlog hl] at hl'
    exact absurd hl' (by simp)
  have hmain : mainModel a env = { MainResult.base with ret := -1 } := by
    unfold mainModel
    rw [if_neg (by simp [hf, hs]), if_neg hlog', if_pos hex]
  rw [hmain]
  refine ⟨rfl, by decide, rfl, rfl, rfl, rfl⟩

/-- C5 amended witness: concrete run with the target path existing. -/
theorem c5_existing_path_nonzero_exit_no_device_witness :
    (mainModel
        { fname := some "o.bin", sizeArg := some "2G", gainArg := none, logArg := none }
        { logOpenOk := true, fileExists := true, ftruncateOk := true, mmapOk := true,
          openRes := 0, freqRes := 0, srateRes := 0, bwRes := 0, gainModeRes := 0,
          setGainRes := 0, syncCfgRes := 0, enableRes := 0, loopInputs := [],
          lateStop := false }).deviceOpenCalled = false :=
  (c5_existing_path_nonzero_exit_no_device _ _ (by decide) (by decide)
    (by decide) rfl).2.2.1

/-- C6: under the delivery-size precondition, throughout the acquisition
loop (the schedule is arbitrary, so every reachable state is covered)
`written + 4 * remaining` stays equal to its initial value
`4 * (max_size / 4)`, the write cursor `written` (and `4 * dst`) never
exceeds `max_size`, and the issued writes are contiguous in delivery
order: each starts where the previous one ended, hence at strictly
increasing offsets whenever the previous block was non-empty. -/
theorem c6_cursor_bounded_and_writes_ordered (max_size : Nat)
    (hms : max_size < W64) (inputs : List LoopInput)
    (hg : goodRun (initState max_size) inputs = true) :
    (runLoop (initState max_size) inputs).1.written +
        4 * (runLoop (initState max_size) inputs).1.remaining =
      4 * (max_size / 4) ∧
    (runLoop (initState max_size) inputs).1.written ≤ max_size ∧
    4 * (runLoop (initState max_size) inputs).1.dst ≤ max_size ∧
    (runLoop (initState max_size) inputs).1.events.Chain'
      (fun e e' => e'.1 = e.1 + e.2 ∧ (0 < e.2 → e.1 < e'.1)) := by
  have hspec := runLoop_spec max_size hms inputs (initState max_size)
    (initState_inv _) hg
  have hinv := hspec.1
  have hdiv : 4 * (max_size / 4) ≤ max_size := Nat.mul_div_le max_size 4
  have hwd := hinv.wd
  have hcap := hinv.cap
  refine ⟨hcap, by omega, by omega, ?_⟩
  exact hinv.chain.imp (fun a b h => by omega)

/-- C6 witness: two deliveries of 250000 then 10 samples into a 2M store;
the final cursor is within bounds and the two writes are adjacent. -/
theorem c6_cursor_bounded_and_writes_ordered_witness :
    (runLoop (initState 2000000)
        [⟨false, ⟨0, 250000, false⟩⟩, ⟨false, ⟨0, 10, false⟩⟩]).1.written ≤
      2000000 :=
  (c6_cursor_bounded_and_writes_ordered 2000000 (by norm_num [W64]) _
    (by decide)).2.1

/-- The unit tier `autoscale_float` lands in for a non-negative value:
0 = bytes, 1 = kilo, 2 = mega, 3 = giga (the table stops at `G`). -/
def tier (v : ℚ) : Nat :=
  if v < 1000 then 0
  else if v < 1000000 then 1
  else if v < 1000000000 then 2
  else 3

/-- For every non-negative input, `autoscale_float` returns the value
divided by 1000 once per tier with the matching suffix from `" kMG"`, and
every lower tier was passed through a full division by 1000. -/
theorem autoscale_tier_spec :
    ∀ v : ℚ, 0 ≤ v →
      autoscale_float v = (v / 1000 ^ tier v, [' ', 'k', 'M', 'G'].getD (tier v) ' ') ∧
      (∀ j, j < tier v → 1000 ≤ v / 1000 ^ j) := by
  intro v hv
  by_cases h1 : v < 1000
  · have ht : tier v = 0 := by simp [tier, h1]
    rw [ht]
    refine ⟨?_, by omega⟩
    show autoscaleGo v [' ', 'k', 'M', 'G'] = (v / 1000 ^ 0, ' ')
    rw [autoscaleGo, if_neg (by linarith)]
    norm_num
  · push_neg at h1
    have h1000 : (0 : ℚ) < 1000 := by norm_num
    by_cases h2 : v < 1000000
    · have ht : tier v = 1 := by simp [tier, not_lt.mpr h1, h2]
      rw [ht]
      constructor
      · show autoscaleGo v [' ', 'k', 'M', 'G'] = (v / 1000 ^ 1, 'k')
        rw [autoscaleGo, if_pos h1, autoscaleGo,
          if_neg (by rw [not_le, div_lt_iff₀ h1000]; linarith)]
        norm_num
      · intro j hj
        interval_cases j
        simpa using h1
    · push_neg at h2
      by_cases h3 : v < 1000000000
      · have ht : tier v = 2 := by
          simp [tier, not_lt.mpr h1, not_lt.mpr h2, h3]
        rw [ht]
        constructor
        · show autoscaleGo v [' ', 'k', 'M', 'G'] = (v / 1000 ^ 2, 'M')
          rw [autoscaleGo, if_pos h1, autoscaleGo,
            if_pos (by rw [le_div_iff₀ h1000]; linarith), autoscaleGo,
            if_neg (by
              rw [not_le, div_div,
                div_lt_iff₀ (show (0:ℚ) < 1000 * 1000 by norm_num)]
              norm_num
              linarith)]
          rw [div_div]
          norm_num
        · intro j hj
          interval_cases j
          · simpa using by linarith
          · rw [pow_one, le_div_iff₀ h1000]
            linarith
      · push_neg at h3
        have ht : tier v = 3 := by
          simp [tier, not_lt.mpr h1, not_lt.mpr h2, not_lt.mpr h3]
        rw [ht]
        constructor
        · show autoscaleGo v [' ', 'k', 'M', 'G'] = (v / 1000 ^ 3, 'G')
          rw [autoscaleGo, if_pos h1, autoscaleGo,
            if_pos (by rw [le_div_iff₀ h1000]; linarith), autoscaleGo,
            if_pos (by
              rw [div_div, le_div_iff₀ (show (0:ℚ) < 1000 * 1000 by norm_num)]
              norm_num
              linarith), autoscaleGo]
          rw [div_div, div_div]
          norm_num
        · intro j hj
          interval_cases j
          · simpa using by linarith
          · rw [pow_one, le_div_iff₀ h1000]
            linarith
          · rw [le_div_iff₀ (by positivity : (0:ℚ) < 1000 ^ 2)]
            norm_num
            linarith
/-- The selected tier is monotone in the input. -/
theorem tier_mono : ∀ v w : ℚ, 0 ≤ v → v ≤ w → tier v ≤ tier w := by
  intro v w hv hvw
  unfold tier
  split_ifs <;> first | omega | linarith

/-- C7: the four specified input/output pairs of `autoscale_float`; for
every non-negative input the result is the value divided by 1000 once per
tier with the matching suffix from `" kMG"`, every lower tier was passed
through a full division by 1000 (no tier is skipped); and the tier is
monotone in the input. -/
theorem c7_autoscale_examples_and_tiers :
    autoscale_float 999 = (999, ' ') ∧
    autoscale_float 1000 = (1, 'k') ∧
    autoscale_float 999999 = ((999999 : ℚ) / 1000, 'k') ∧
    autoscale_float 1000000 = (1, 'M') ∧
    (∀ v : ℚ, 0 ≤ v →
      autoscale_float v = (v / 1000 ^ tier v, [' ', 'k', 'M', 'G'].getD (tier v) ' ') ∧
      (∀ j, j < tier v → 1000 ≤ v / 1000 ^ j)) ∧
    (∀ v w : ℚ, 0 ≤ v → v ≤ w → tier v ≤ tier w) := by
  refine ⟨?_, ?_, ?_, ?_, autoscale_tier_spec, tier_mono⟩
  · have h := (autoscale_tier_spec 999 (by norm_num)).1
    have ht : tier 999 = 0 := by norm_num [tier]
    rw [ht] at h
    rw [h]
    norm_num
  · have h := (autoscale_tier_spec 1000 (by norm_num)).1
    have ht : tier 1000 = 1 := by norm_num [tier]
    rw [ht] at h
    rw [h]
    norm_num
  · have h := (autoscale_tier_spec 999999 (by norm_num)).1
    have ht : tier 999999 = 1 := by norm_num [tier]
    rw [ht] at h
    rw [h]
    norm_num
  · have h := (autoscale_tier_spec 1000000 (by norm_num)).1
    have ht : tier 1000000 = 2 := by norm_num [tier]
    rw [ht] at h
    rw [h]
    norm_num

/-- C7 witness: instantiating the tier clause at 5·10⁹ (giga range). -/
theorem c7_autoscale_examples_and_tiers_witness :
    autoscale_float 5000000000 =
      ((5000000000 : ℚ) / 1000 ^ tier 5000000000,
        [' ', 'k', 'M', 'G'].getD (tier 5000000000) ' ') :=
  (c7_autoscale_examples_and_tiers.2.2.2.2.1 5000000000 (by norm_num)).1

/-- `strtoull` stops at the first non-digit: appending one to a digit
string does not change the parsed value. -/
theorem digitsVal_append_nondigit (ds : List Char) (c : Char) (acc : Nat)
    (hds : ∀ d ∈ ds, d.isDigit) (hc : c.isDigit = false) :
    digitsVal (ds ++ [c]) acc = digitsVal ds acc := by
  induction ds generalizing acc with
  | nil => simp [digitsVal, hc]
  | cons d rest ih =>
    have hd : d.isDigit := hds d (by simp)
    simp only [List.cons_append, digitsVal, hd, if_true]
    exact ih _ (fun x hx => hds x (by simp [hx]))

/-- `parse_fsize` on a digit string followed by one non-digit suffix whose
multiplier is `m`, when the product fits in `size_t`. -/
theorem parse_fsize_concat (ds : List Char) (suf : Char) (m : Nat)
    (hds : ∀ d ∈ ds, d.isDigit) (hnd : suf.isDigit = false)
    (hm : (if suf = 'M' then 1000 * 1000
      else if suf = 'G' then 1000 * 1000 * 1000
      else if suf = 'T' then 1000 * 1000 * 1000 * 1000
      else 0) = m)
    (hpos : 0 < m)
    (hlt : digitsVal ds 0 * m < W64) :
    parse_fsize (String.mk (ds ++ [suf])) = digitsVal ds 0 * m := by
  have hdata : (String.mk (ds ++ [suf])).data = ds ++ [suf] := rfl
  have hv : strtoull10 (String.mk (ds ++ [suf])) = digitsVal ds 0 := by
    unfold strtoull10
    rw [hdata, digitsVal_append_nondigit ds suf 0 hds hnd]
    have : digitsVal ds 0 ≤ digitsVal ds 0 * m :=
      Nat.le_mul_of_pos_right _ hpos
    omega
  unfold parse_fsize
  rw [hdata, List.getLastD_concat, hv]
  show digitsVal ds 0 *
      (if suf = 'M' then 1000 * 1000
        else if suf = 'G' then 1000 * 1000 * 1000
        else if suf = 'T' then 1000 * 1000 * 1000 * 1000 else 0) % W64 =
    digitsVal ds 0 * m
  rw [hm]
  exact Nat.mod_eq_of_lt hlt

/-- C8: the size parser maps a decimal number followed by `M`, `G` or `T`
to the number times 10⁶, 10⁹ or 10¹² respectively (whenever the product
fits in `size_t`), and in particular `"10M"` ↦ 10000000, `"1G"` ↦
1000000000, `"2T"` ↦ 2000000000000. -/
theorem c8_parse_fsize_suffix_multipliers :
    parse_fsize "10M" = 10000000 ∧
    parse_fsize "1G" = 1000000000 ∧
    parse_fsize "2T" = 2000000000000 ∧
    (∀ (ds : List Char) (suf : Char) (m : Nat),
      (∀ c ∈ ds, c.isDigit) →
      ((suf = 'M' ∧ m = 1000000) ∨ (suf = 'G' ∧ m = 1000000000) ∨
        (suf = 'T' ∧ m = 1000000000000)) →
      digitsVal ds 0 * m < W64 →
      parse_fsize (String.mk (ds ++ [suf])) = digitsVal ds 0 * m) := by
  refine ⟨by decide, by decide, by decide, ?_⟩
  intro ds suf m hds hsuf hlt
  rcases hsuf with ⟨hs, hm⟩ | ⟨hs, hm⟩ | ⟨hs, hm⟩ <;> subst hs <;> subst hm
  · exact parse_fsize_concat ds 'M' _ hds (by decide) (by decide) (by decide) hlt
  · exact parse_fsize_concat ds 'G' _ hds (by decide) (by decide) (by decide) hlt
  · exact parse_fsize_concat ds 'T' _ hds (by decide) (by decide) (by decide) hlt

/-- C8 witness: `"500M"` parses to 500000000. -/
theorem c8_parse_fsize_suffix_multipliers_witness :
    parse_fsize (String.mk (['5', '0', '0'] ++ ['M'])) = 500000000 := by
  have h := c8_parse_fsize_suffix_multipliers.2.2.2 ['5', '0', '0'] 'M' 1000000
    (by decide) (Or.inl ⟨rfl, rfl⟩) (by decide)
  rw [h]
  decide

/-- C9: the loop performs no bounds check of its own on `actual_count`.
Under the precondition that every delivery is within the requested
`MIN(remaining, NUM_SAMPLES)`, the unsigned `remaining` counter never
underflows (it always equals `max_size/4 − dst` exactly) and the
destination pointer never passes the end of the mapped region.  Without
the precondition, a single oversized delivery (3 samples against a 2-sample
store) makes `remaining` wrap to `2⁶⁴ − 1` and pushes the pointer past the
end — the loop accepts it without any check. -/
theorem c9_bounds_safety_requires_precondition (max_size : Nat)
    (hms : max_size < W64) (inputs : List LoopInput)
    (hg : goodRun (initState max_size) inputs = true) :
    (4 * (runLoop (initState max_size) inputs).1.dst ≤ max_size ∧
      (runLoop (initState max_size) inputs).1.remaining =
        max_size / 4 - (runLoop (initState max_size) inputs).1.dst) ∧
    (goodRun (initState 8) [⟨false, ⟨0, 3, false⟩⟩] = false ∧
      (runLoop (initState 8) [⟨false, ⟨0, 3, false⟩⟩]).1.remaining = W64 - 1 ∧
      8 < 4 * (runLoop (initState 8) [⟨false, ⟨0, 3, false⟩⟩]).1.dst) := by
  refine ⟨?_, by decide, by decide, by decide⟩
  have hspec := runLoop_spec max_size hms inputs (initState max_size)
    (initState_inv _) hg
  have hwd := hspec.1.wd
  have hcap := hspec.1.cap
  have hdiv : 4 * (max_size / 4) ≤ max_size := Nat.mul_div_le max_size 4
  exact ⟨by omega, by omega⟩

/-- C9 witness: a compliant run (one 100-sample block into a 400-byte
store) keeps the pointer in bounds. -/
theorem c9_bounds_safety_requires_precondition_witness :
    4 * (runLoop (initState 400) [⟨false, ⟨0, 100, false⟩⟩]).1.dst ≤ 400 :=
  (c9_bounds_safety_requires_precondition 400 (by norm_num [W64]) _
    (by decide)).1.1

/-- C10: any size argument whose last character is not `M`, `G` or `T`
(e.g. a plain byte count like `"500"`) parses to 0; the argument check
treats that like a missing `-s`, so `main` prints usage and returns 1
before opening any file or device. -/
theorem c10_unsuffixed_size_rejected (s : String) (hne : s.data ≠ [])
    (hsuf : ∀ c ∈ s.data.getLast?, c ≠ 'M' ∧ c ≠ 'G' ∧ c ≠ 'T') :
    parse_fsize s = 0 ∧
    ∀ (a : Args) (env : Env), a.sizeArg = some s →
      mainModel a env = { MainResult.base with ret := 1 } ∧
      processExit (mainModel a env).ret = 1 := by
  obtain ⟨c, hc⟩ : ∃ c, s.data.getLast? = some c := by
    cases h : s.data.getLast? with
    | none => exact absurd (List.getLast?_eq_none_iff.mp h) hne
    | some c => exact ⟨c, rfl⟩
  obtain ⟨hM, hG, hT⟩ := hsuf c (by rw [hc]; rfl)
  have hlast : s.data.getLastD (Char.ofNat 0) = c := by
    rw [List.getLastD_eq_getLast?, hc]
    rfl
  have hparse : parse_fsize s = 0 := by
    unfold parse_fsize
    rw [hlast]
    show strtoull10 s *
        (if c = 'M' then 1000 * 1000
          else if c = 'G' then 1000 * 1000 * 1000
          else if c = 'T' then 1000 * 1000 * 1000 * 1000 else 0) % W64 = 0
    rw [if_neg hM, if_neg hG, if_neg hT]
    simp
  refine ⟨hparse, ?_⟩
  intro a env hsz
  have hmax : argMaxSize a = 0 := by
    unfold argMaxSize
    rw [hsz]
    exact hparse
  have hmain : mainModel a env = { MainResult.base with ret := 1 } := by
    unfold mainModel
    rw [if_pos (Or.inr hmax)]
  exact ⟨hmain, by rw [hmain]; rfl⟩

/-- C10 witness: `-s 500` (no suffix) is rejected with usage and exit 1. -/
theorem c10_unsuffixed_size_rejected_witness :
    mainModel
        { fname := some "o.bin", sizeArg := some "500", gainArg := none, logArg := none }
        { logOpenOk := true, fileExists := false, ftruncateOk := true, mmapOk := true,
          openRes := 0, freqRes := 0, srateRes := 0, bwRes := 0, gainModeRes := 0,
          setGainRes := 0, syncCfgRes := 0, enableRes := 0, loopInputs := [],
          lateStop := false } =
      { MainResult.base with ret := 1 } :=
  ((c10_unsuffixed_size_rejected "500" (by decide) (by decide)).2 _ _ rfl).1

end BladerfRx
